import Mathlib

/-
Verification of the keriox event-stream parsing and validation core.

The development shallowly embeds src/src/event_message/parse.rs,
src/src/event/event_data/interaction.rs and src/src/signer/mod.rs.
Byte streams are `List Char` (every wire format exercised here is ASCII).
Code of the repository that lives outside those files (the prefix parsers,
the serde codecs of `EventMessage`, `IdentifierState::apply` and
`verify`, `b64_to_num`) is modelled from the specification, as marked on
each such definition.
-/

namespace Keriox

set_option maxRecDepth 8192

abbrev Bytes := List Char

/-- Value of a urlsafe base64 digit (A..Z a..z 0..9 - _), by ASCII code. -/
def b64Val (c : Char) : Option Nat :=
  if 65 ≤ c.toNat ∧ c.toNat ≤ 90 then some (c.toNat - 65)
  else if 97 ≤ c.toNat ∧ c.toNat ≤ 122 then some (c.toNat - 97 + 26)
  else if 48 ≤ c.toNat ∧ c.toNat ≤ 57 then some (c.toNat - 48 + 52)
  else if c.toNat = 45 then some 62
  else if c.toNat = 95 then some 63
  else none

/-- Value of a lowercase hex digit, by ASCII code. -/
def hexVal (c : Char) : Option Nat :=
  if 48 ≤ c.toNat ∧ c.toNat ≤ 57 then some (c.toNat - 48)
  else if 97 ≤ c.toNat ∧ c.toNat ≤ 102 then some (c.toNat - 87)
  else none

def b64NumGo : Bytes → Nat → Option Nat
  | [], acc => some acc
  | c :: rest, acc =>
    match b64Val c with
    | some v => b64NumGo rest (acc * 64 + v)
    | none => none

/-- Modelled from the spec: `b64_to_num` of
`crate::derivation::attached_signature_code` (not under src/) reads a
base64 integer, most significant digit first. -/
def b64_to_num (cs : Bytes) : Option Nat :=
  match cs with
  | [] => none
  | _ :: _ => b64NumGo cs 0

def hexNumGo : Bytes → Nat → Option Nat
  | [], acc => some acc
  | c :: rest, acc =>
    match hexVal c with
    | some v => hexNumGo rest (acc * 16 + v)
    | none => none

def hexNum? (cs : Bytes) : Option Nat :=
  match cs with
  | [] => none
  | _ :: _ => hexNumGo cs 0

/-- Take exactly `n` items of the input, failing when it is shorter. -/
def takeN (n : Nat) (s : Bytes) : Option (Bytes × Bytes) :=
  if n ≤ s.length then some (s.take n, s.drop n) else none

/-- Error kinds of the nom parser errors appearing in parse.rs. -/
inductive ErrKind where
  | isNot
  | verify
  | many0
  | many1
  | eof
  deriving DecidableEq, Repr

/-- nom `Err`: recoverable `Error` versus unrecoverable `Failure`, each
carrying the input slice it was raised at. -/
inductive NomErr where
  | error (rest : Bytes) (k : ErrKind)
  | failure (rest : Bytes) (k : ErrKind)
  deriving DecidableEq, Repr

instance {ε α : Type} [DecidableEq ε] [DecidableEq α] : DecidableEq (Except ε α) := fun a b =>
  match a, b with
  | .ok x, .ok y =>
    if h : x = y then .isTrue (congrArg Except.ok h)
    else .isFalse (fun hh => h (Except.ok.inj hh))
  | .error x, .error y =>
    if h : x = y then .isTrue (congrArg Except.error h)
    else .isFalse (fun hh => h (Except.error.inj hh))
  | .ok _, .error _ => .isFalse (fun hh => Except.noConfusion hh)
  | .error _, .ok _ => .isFalse (fun hh => Except.noConfusion hh)

/-- nom `IResult`: remaining input and output, or an error. -/
abbrev NomResult (α : Type) := Except NomErr (Bytes × α)

inductive SerializationFormat where
  | json
  | cbor
  | mgpk
  deriving DecidableEq, Repr

/-- Dialect and declared total size from the 17-char version string. -/
structure SerializationInfo where
  format : SerializationFormat
  size : Nat
  deriving DecidableEq, Repr

/-- Seal union per the spec's data model. -/
inductive Seal where
  | digest (d : Bytes)
  | event (i : Bytes) (s : Nat) (d : Bytes)
  | location (i : Bytes) (s : Nat) (t : Bytes) (p : Bytes)
  | delegating (i : Bytes) (s : Nat) (d : Bytes)
  deriving DecidableEq, Repr

/-- Identifier an anchoring seal points at, when it names one. -/
def sealSource : Seal → Option Bytes
  | .digest _ => none
  | .event i _ _ => some i
  | .location i _ _ _ => some i
  | .delegating i _ _ => some i

/-- Inception event payload: fields kt, k, n, wt, w, c of the spec. -/
structure InceptionEvent where
  kt : Nat
  k : List Bytes
  n : Bytes
  wt : Nat
  w : List Bytes
  c : List Bytes
  deriving DecidableEq, Repr

/-- Rotation event payload: fields p, kt, k, n, wt, wr, wa, a of the spec. -/
structure RotationEvent where
  p : Bytes
  kt : Nat
  k : List Bytes
  n : Bytes
  wt : Nat
  wr : List Bytes
  wa : List Bytes
  a : List Seal
  deriving DecidableEq, Repr

/-- `InteractionEvent` from src/src/event/event_data/interaction.rs: field
`previous_event_hash` is serde-renamed to "dig" there, and `data` keeps
its name, so those are the JSON keys this struct reads and writes. -/
structure InteractionEvent where
  previous_event_hash : Bytes
  data : List Seal
  deriving DecidableEq, Repr

/-- Delegated inception: inception fields plus the delegator seal da. -/
structure DelegatedInceptionEvent where
  icp : InceptionEvent
  da : Seal
  deriving DecidableEq, Repr

/-- Delegated rotation: rotation fields plus the delegator seal da. -/
structure DelegatedRotationEvent where
  rot : RotationEvent
  da : Seal
  deriving DecidableEq, Repr

/-- Receipt payload: the digest of the referenced event. -/
structure ReceiptEvent where
  d : Bytes
  deriving DecidableEq, Repr

/-- EventData tagged union: icp, rot, ixn, dip, drt, rct, vrc. -/
inductive EventData where
  | icp (d : InceptionEvent)
  | rot (d : RotationEvent)
  | ixn (d : InteractionEvent)
  | dip (d : DelegatedInceptionEvent)
  | drt (d : DelegatedRotationEvent)
  | rct (d : ReceiptEvent)
  | vrc (d : ReceiptEvent)
  deriving DecidableEq, Repr

def EventData.isRct : EventData → Bool
  | .rct _ => true
  | _ => false

def EventData.isVrc : EventData → Bool
  | .vrc _ => true
  | _ => false

/-- Event envelope: identifier (field `prefix` in the source, renamed
here), sequence number, event data. -/
structure Event where
  pfx : Bytes
  sn : Nat
  event_data : EventData
  deriving DecidableEq, Repr

/-- EventMessage: the event together with its version-string data. -/
structure EventMessage where
  serialization_info : SerializationInfo
  event : Event
  deriving DecidableEq, Repr

/-! JSON micro-reader for the flat canonical frames of the test vectors:
objects whose values are strings or arrays of strings, no whitespace,
no escapes. Nested objects (delegated-event da seals, non-empty seal
lists) are rejected; no claim needs them concretely. -/

inductive JValue where
  | str (s : Bytes)
  | arr (xs : List Bytes)
  deriving DecidableEq, Repr

def jstrGo : Bytes → Bytes → Option (Bytes × Bytes)
  | [], _ => none
  | c :: rest, acc =>
    if c = '"' then some (acc.reverse, rest) else jstrGo rest (c :: acc)

/-- Read a quoted string, returning its content and the rest. -/
def parseJString : Bytes → Option (Bytes × Bytes)
  | '"' :: rest => jstrGo rest []
  | _ => none

def jarrGo : Nat → Bytes → List Bytes → Option (List Bytes × Bytes)
  | 0, _, _ => none
  | fuel + 1, s, acc =>
    match parseJString s with
    | none => none
    | some (v, r) =>
      match r with
      | ',' :: r2 => jarrGo fuel r2 (v :: acc)
      | ']' :: r2 => some ((v :: acc).reverse, r2)
      | _ => none

/-- Read an array of strings, returning the elements and the rest. -/
def parseJArr : Bytes → Option (List Bytes × Bytes)
  | '[' :: ']' :: rest => some ([], rest)
  | '[' :: rest => jarrGo (rest.length + 1) rest []
  | _ => none

/-- Read one key/value pair. -/
def parsePair (s : Bytes) : Option ((Bytes × JValue) × Bytes) :=
  match parseJString s with
  | none => none
  | some (key, r1) =>
    match r1 with
    | ':' :: r2 =>
      match r2 with
      | '"' :: _ =>
        match parseJString r2 with
        | some (v, r3) => some ((key, .str v), r3)
        | none => none
      | '[' :: _ =>
        match parseJArr r2 with
        | some (vs, r3) => some ((key, .arr vs), r3)
        | none => none
      | _ => none
    | _ => none

def jobjGo : Nat → Bytes → List (Bytes × JValue) → Option (List (Bytes × JValue))
  | 0, _, _ => none
  | fuel + 1, s, acc =>
    match parsePair s with
    | none => none
    | some (p, r) =>
      match r with
      | ',' :: r2 => jobjGo fuel r2 (p :: acc)
      | ['}'] => some (p :: acc).reverse
      | _ => none

/-- Read a whole flat JSON object that must span the entire input. -/
def parseJObjComplete : Bytes → Option (List (Bytes × JValue))
  | '{' :: rest => jobjGo (rest.length + 1) rest []
  | _ => none

def jlookup (flds : List (Bytes × JValue)) (key : Bytes) : Option JValue :=
  match flds.find? (fun p => p.1 = key) with
  | some p => some p.2
  | none => none

def jstr? (flds : List (Bytes × JValue)) (key : Bytes) : Option Bytes :=
  match jlookup flds key with
  | some (.str v) => some v
  | _ => none

def jarr? (flds : List (Bytes × JValue)) (key : Bytes) : Option (List Bytes) :=
  match jlookup flds key with
  | some (.arr vs) => some vs
  | _ => none

def jnum? (flds : List (Bytes × JValue)) (key : Bytes) : Option Nat :=
  match jstr? flds key with
  | some v => hexNum? v
  | none => none

def jemptyArr (flds : List (Bytes × JValue)) (key : Bytes) : Option Unit :=
  match jlookup flds key with
  | some (.arr []) => some ()
  | _ => none

def kV : Bytes := ("v").data
def kI : Bytes := ("i").data
def kS : Bytes := ("s").data
def kT : Bytes := ("t").data
def kKt : Bytes := ("kt").data
def kK : Bytes := ("k").data
def kN : Bytes := ("n").data
def kWt : Bytes := ("wt").data
def kW : Bytes := ("w").data
def kC : Bytes := ("c").data
def kP : Bytes := ("p").data
def kWr : Bytes := ("wr").data
def kWa : Bytes := ("wa").data
def kA : Bytes := ("a").data
def kDig : Bytes := ("dig").data
def kData : Bytes := ("data").data
def kD : Bytes := ("d").data
def tIcp : Bytes := ("icp").data
def tRot : Bytes := ("rot").data
def tIxn : Bytes := ("ixn").data
def tRct : Bytes := ("rct").data
def tVrc : Bytes := ("vrc").data

/-- Parse the 17-char version string KERI10<dialect><6 lowercase hex>_. -/
def parseVersion (v : Bytes) : Option SerializationInfo :=
  match v with
  | 'K' :: 'E' :: 'R' :: 'I' :: '1' :: '0' :: a :: b :: c :: d :: h1 :: h2 :: h3 :: h4 :: h5 :: h6 :: ['_'] =>
    match hexNum? [h1, h2, h3, h4, h5, h6] with
    | none => none
    | some size =>
      if [a, b, c, d] = ("JSON").data then some ⟨.json, size⟩
      else if [a, b, c, d] = ("CBOR").data then some ⟨.cbor, size⟩
      else if [a, b, c, d] = ("MGPK").data then some ⟨.mgpk, size⟩
      else none
  | _ => none

/-- Read the version string through the leading bytes of a JSON frame,
whose first field is "v" per the spec's canonical layout. -/
def peekVersion : Bytes → Option SerializationInfo
  | '{' :: '"' :: 'v' :: '"' :: ':' :: '"' :: rest => parseVersion (rest.take 17)
  | _ => none

/-- Modelled from the spec: build the Event from the decoded JSON fields
under the spec's field names (section 3), except that the interaction
payload reads keys "dig" and "data", the serde names declared by
`InteractionEvent` in src/src/event/event_data/interaction.rs. -/
def eventFromFields (flds : List (Bytes × JValue)) : Option Event :=
  match jstr? flds kI, jnum? flds kS, jstr? flds kT with
  | some i, some sn, some t =>
    if t = tIcp then
      match jnum? flds kKt, jarr? flds kK, jstr? flds kN, jnum? flds kWt, jarr? flds kW, jarr? flds kC with
      | some kt, some k, some n, some wt, some w, some c =>
        some ⟨i, sn, .icp ⟨kt, k, n, wt, w, c⟩⟩
      | _, _, _, _, _, _ => none
    else if t = tRot then
      match jstr? flds kP, jnum? flds kKt, jarr? flds kK, jstr? flds kN with
      | some p, some kt, some k, some n =>
        match jnum? flds kWt, jarr? flds kWr, jarr? flds kWa, jemptyArr flds kA with
        | some wt, some wr, some wa, some _ =>
          some ⟨i, sn, .rot ⟨p, kt, k, n, wt, wr, wa, []⟩⟩
        | _, _, _, _ => none
      | _, _, _, _ => none
    else if t = tIxn then
      match jstr? flds kDig, jemptyArr flds kData with
      | some dg, some _ => some ⟨i, sn, .ixn ⟨dg, []⟩⟩
      | _, _ => none
    else if t = tRct then
      match jstr? flds kD with
      | some d => some ⟨i, sn, .rct ⟨d⟩⟩
      | none => none
    else if t = tVrc then
      match jstr? flds kD with
      | some d => some ⟨i, sn, .vrc ⟨d⟩⟩
      | none => none
    else none
  | _, _, _ => none

/-- Modelled from the spec: the JSON codec for `EventMessage` (its serde
implementation is not under src/). Per section 4.2 it reads the declared
size from the version string, consumes exactly that many bytes, and
succeeds only when they form a well-formed event frame; the consumed
count always equals the declared size. -/
def jsonDecode (s : Bytes) : Option (EventMessage × Nat) :=
  match peekVersion s with
  | none => none
  | some vinfo =>
    if vinfo.format = SerializationFormat.json ∧ vinfo.size ≤ s.length then
      match parseJObjComplete (s.take vinfo.size) with
      | none => none
      | some flds =>
        match eventFromFields flds with
        | none => none
        | some ev => some (⟨vinfo, ev⟩, vinfo.size)
    else none

/-- A codec: bytes in, parsed event message plus consumed count out. -/
abbrev Decoder := Bytes → Option (EventMessage × Nat)

/-- Modelled from the spec: contract every codec obeys (section 4.2) —
a success consumes exactly the declared version-string size, a positive
number of bytes no larger than the input. -/
def GoodDecoder (d : Decoder) : Prop :=
  ∀ s em n, d s = some (em, n) →
    n = em.serialization_info.size ∧ 0 < n ∧ n ≤ s.length

/-- The always-failing codec, used to instantiate the CBOR and
MessagePack slots in concrete computations. -/
def noDec : Decoder := fun _ => none

/-- `DeserializedEvent` of parse.rs: parsed event plus its raw frame. -/
structure DeserializedEvent where
  event : EventMessage
  raw : Bytes
  deriving DecidableEq, Repr

/-- Run a codec the way json_message/cbor_message/mgpk_message do: the
raw frame is the consumed input, the rest is returned unread. -/
def runCodec (d : Decoder) (s : Bytes) : NomResult DeserializedEvent :=
  match d s with
  | some (em, n) => .ok (s.drop n, ⟨em, s.take n⟩)
  | none => .error (.error s .isNot)

/-- nom `alt` over two branches: a soft error tries the next branch, a
hard failure aborts. -/
def altP (p q : Bytes → NomResult α) (s : Bytes) : NomResult α :=
  match p s with
  | .ok r => .ok r
  | .error (.failure r k) => .error (.failure r k)
  | .error (.error _ _) => q s

def json_message (s : Bytes) : NomResult DeserializedEvent :=
  runCodec jsonDecode s

/-- `message` of parse.rs: try the JSON, CBOR and MessagePack codecs in
that order. The latter two are binary codecs whose code is not under
src/, so they are parameters constrained by `GoodDecoder` in the
theorems. -/
def message (cborD mgpkD : Decoder) (s : Bytes) : NomResult DeserializedEvent :=
  altP json_message (altP (runCodec cborD) (runCodec mgpkD)) s

/-- Self-signing derivation algorithms appearing in the test vectors. -/
inductive SelfSigning where
  | ed25519Sha512
  | ecdsaSecp256k1Sha256
  | ed448
  deriving DecidableEq, Repr

/-- An attached signature: algorithm, signer index into the current key
list, and the (undecoded base64) signature payload. -/
structure AttachedSignaturePfx where
  code : SelfSigning
  index : Nat
  sig : Bytes
  deriving DecidableEq, Repr

/-- A basic (public-key) prefix: derivation code char plus payload. -/
structure BasicPfx where
  code : Char
  key : Bytes
  deriving DecidableEq, Repr

/-- A self-signing (bare signature) prefix. -/
structure SelfSigningPfx where
  code : SelfSigning
  sig : Bytes
  deriving DecidableEq, Repr

/-- Modelled from the spec: the attached-signature prefix parser of
`crate::prefix::parse` (not under src/). Code 'A'+1 index char reads an
Ed25519Sha512 signature of 86 base64 chars, 'B'+1 an ECDSA secp256k1
one of 86 chars, '0A'+2 index chars an Ed448 one of 152 chars; the
payload chars are kept undecoded. -/
def attached_signature (s : Bytes) : NomResult AttachedSignaturePfx :=
  match s with
  | 'A' :: ic :: rest =>
    match b64Val ic with
    | some idx =>
      match takeN 86 rest with
      | some (sg, r) => .ok (r, ⟨.ed25519Sha512, idx, sg⟩)
      | none => .error (.error s .eof)
    | none => .error (.error s .isNot)
  | 'B' :: ic :: rest =>
    match b64Val ic with
    | some idx =>
      match takeN 86 rest with
      | some (sg, r) => .ok (r, ⟨.ecdsaSecp256k1Sha256, idx, sg⟩)
      | none => .error (.error s .eof)
    | none => .error (.error s .isNot)
  | '0' :: 'A' :: i1 :: i2 :: rest =>
    match b64_to_num [i1, i2] with
    | some idx =>
      match takeN 152 rest with
      | some (sg, r) => .ok (r, ⟨.ed448, idx, sg⟩)
      | none => .error (.error s .eof)
    | none => .error (.error s .isNot)
  | _ => .error (.error s .isNot)

/-- Modelled from the spec: the basic-prefix parser of
`crate::prefix::parse` (not under src/): a 1-char derivation code and 43
base64 chars of public key. -/
def basic_pfx (s : Bytes) : NomResult BasicPfx :=
  match s with
  | c :: rest =>
    if c = 'B' ∨ c = 'C' ∨ c = 'D' ∨ c = 'L' then
      match takeN 43 rest with
      | some (key, r) => .ok (r, ⟨c, key⟩)
      | none => .error (.error s .eof)
    else .error (.error s .isNot)
  | [] => .error (.error s .isNot)

/-- Modelled from the spec: the self-signing-prefix parser of
`crate::prefix::parse` (not under src/): '0B' and '0C' read 86 base64
chars, '1AAE' reads 152. -/
def self_signing_pfx (s : Bytes) : NomResult SelfSigningPfx :=
  match s with
  | '0' :: 'B' :: rest =>
    match takeN 86 rest with
    | some (sg, r) => .ok (r, ⟨.ed25519Sha512, sg⟩)
    | none => .error (.error s .eof)
  | '0' :: 'C' :: rest =>
    match takeN 86 rest with
    | some (sg, r) => .ok (r, ⟨.ecdsaSecp256k1Sha256, sg⟩)
    | none => .error (.error s .eof)
  | '1' :: 'A' :: 'A' :: 'E' :: rest =>
    match takeN 152 rest with
    | some (sg, r) => .ok (r, ⟨.ed448, sg⟩)
    | none => .error (.error s .eof)
  | _ => .error (.error s .isNot)

/-- `sig_count` of parse.rs: the two chars "-A", then a 2-char base64
integer; invalid digits raise a hard nom Failure at the original input. -/
def sig_count (s : Bytes) : NomResult Nat :=
  match s with
  | a :: b :: c1 :: c2 :: rest =>
    if a = '-' ∧ b = 'A' then
      match b64_to_num [c1, c2] with
      | some n => .ok (rest, n)
      | none => .error (.failure (a :: b :: c1 :: c2 :: rest) .isNot)
    else .error (.error (a :: b :: c1 :: c2 :: rest) .isNot)
  | _ => .error (.error s .isNot)

/-- nom `count`: exactly `n` repetitions, propagating the inner error. -/
def countP (p : Bytes → NomResult α) : Nat → Bytes → NomResult (List α)
  | 0, s => .ok (s, [])
  | n + 1, s =>
    match p s with
    | .ok (r, a) =>
      match countP p n r with
      | .ok (r2, as) => .ok (r2, a :: as)
      | .error e => .error e
    | .error e => .error e

/-- `signatures` of parse.rs: a count code then that many attached
signatures. -/
def signatures (s : Bytes) : NomResult (List AttachedSignaturePfx) :=
  match sig_count s with
  | .ok (rest, sc) => countP attached_signature sc rest
  | .error e => .error e

/-- One (basic-prefix, self-signing-prefix) couplet. -/
def couplet1 (s : Bytes) : NomResult (BasicPfx × SelfSigningPfx) :=
  match basic_pfx s with
  | .ok (r, b) =>
    match self_signing_pfx r with
    | .ok (r2, ss) => .ok (r2, (b, ss))
    | .error e => .error e
  | .error e => .error e

/-- `couplets` of parse.rs: a count code then that many couplets. -/
def couplets (s : Bytes) : NomResult (List (BasicPfx × SelfSigningPfx)) :=
  match sig_count s with
  | .ok (rest, sc) => countP couplet1 sc rest
  | .error e => .error e

/-- `DeserializedSignedEvent` of parse.rs. -/
structure DeserializedSignedEvent where
  event : DeserializedEvent
  signatures : List AttachedSignaturePfx
  deriving DecidableEq, Repr

/-- `SignedEventMessage` of the event_message module. -/
structure SignedEventMessage where
  event_message : EventMessage
  signatures : List AttachedSignaturePfx
  deriving DecidableEq, Repr

/-- `SignedNontransferableReceipt` of the event_message module. -/
structure SignedNontransferableReceipt where
  body : EventMessage
  couplets : List (BasicPfx × SelfSigningPfx)
  deriving DecidableEq, Repr

/-- `Deserialized` of parse.rs: a key event with raw frame, a Vrc, or an
Rct. -/
inductive Deserialized where
  | event (e : DeserializedSignedEvent)
  | vrc (v : SignedEventMessage)
  | rct (r : SignedNontransferableReceipt)
  deriving DecidableEq, Repr

/-- `signed_message` of parse.rs: frame one event, then dispatch on its
type to parse the attachment. -/
def signed_message (cborD mgpkD : Decoder) (s : Bytes) : NomResult Deserialized :=
  match message cborD mgpkD s with
  | .error e => .error e
  | .ok (rest, e) =>
    match e.event.event.event_data with
    | .rct _ =>
      match couplets rest with
      | .ok (extra, cps) => .ok (extra, .rct ⟨e.event, cps⟩)
      | .error er => .error er
    | .vrc _ =>
      match signatures rest with
      | .ok (extra, sgs) => .ok (extra, .vrc ⟨e.event, sgs⟩)
      | .error er => .error er
    | _ =>
      match signatures rest with
      | .ok (extra, sgs) => .ok (extra, .event ⟨e, sgs⟩)
      | .error er => .error er

/-- nom `many0` loop with explicit fuel: a soft error stops with the
collected outputs, a hard failure propagates, and an iteration that
consumes nothing errors out (nom's infinite-loop guard). -/
def many0Fuel (p : Bytes → NomResult α) : Nat → Bytes → NomResult (List α)
  | 0, i => .error (.error i .many0)
  | fuel + 1, i =>
    match p i with
    | .error (.error _ _) => .ok (i, [])
    | .error e => .error e
    | .ok (i2, o) =>
      if i2 = i then .error (.error i .many0)
      else
        match many0Fuel p fuel i2 with
        | .ok (rest, os) => .ok (rest, o :: os)
        | .error e => .error e

/-- `signed_event_stream` of parse.rs: many0(signed_message). -/
def signed_event_stream (cborD mgpkD : Decoder) (s : Bytes) : NomResult (List Deserialized) :=
  many0Fuel (signed_message cborD mgpkD) (s.length + 1) s

/-- nom `fold_many1` loop after the first iteration: a soft error stops
with the accumulator, a hard failure propagates. -/
def foldGo (p : Bytes → NomResult α) (g : β → α → β) : Nat → Bytes → β → NomResult β
  | 0, i, _ => .error (.error i .many1)
  | fuel + 1, i, acc =>
    match p i with
    | .error (.error _ _) => .ok (i, acc)
    | .error e => .error e
    | .ok (i2, o) =>
      if i2 = i then .error (.error i2 .many1)
      else foldGo p g fuel i2 (g acc o)

/-- nom `fold_many1`: the first iteration must succeed (a soft error
becomes a Many1 error, a hard failure propagates), then loop. -/
def fold_many1 (p : Bytes → NomResult α) (g : β → α → β) (init : β) (s : Bytes) : NomResult β :=
  match p s with
  | .error (.error _ _) => .error (.error s .many1)
  | .error e => .error e
  | .ok (i1, o1) => foldGo p g (i1.length + 1) i1 (g init o1)

/-- Semantic error taxonomy of the spec (section 7). -/
inductive Error where
  | outOfOrder
  | badPriorDigest
  | nextKeysMismatch
  | wrongIdentifier
  | missingDelegator
  | invalidIndex
  | semanticError
  | cryptoError
  deriving DecidableEq, Repr

/-- Modelled from the spec: the cryptographic operations the state
machine consumes (digesting frames and key sets, verifying one
signature, validating an inception identifier binding). They live in
crates outside src/, so they are a parameter of the development. -/
structure Crypto where
  digestEM : EventMessage → Bytes
  digestKeys : List Bytes → Bytes
  sigOk : Bytes → Bytes → Bytes → Bool
  icpOk : EventMessage → Bool

/-- Current signing key configuration of an identifier state. -/
structure KeyConfig where
  threshold : Nat
  public_keys : List Bytes
  threshold_key_digest : Bytes
  deriving DecidableEq, Repr

/-- `IdentifierState` per the spec's data model (section 3); the `prefix`
field is named `pfx` here. -/
structure IdentifierState where
  pfx : Bytes
  sn : Nat
  last_event_digest : Bytes
  current : KeyConfig
  witnesses : List Bytes
  tally : Nat
  delegator : Option Bytes
  config_traits : List Bytes
  deriving DecidableEq, Repr

/-- `IdentifierState::default()`: the empty pre-inception state. -/
def IdentifierState.default : IdentifierState :=
  ⟨[], 0, [], ⟨0, [], []⟩, [], 0, none, []⟩

/-- An identifier state is established once an inception set its pfx. -/
def IdentifierState.established (st : IdentifierState) : Bool :=
  !st.pfx.isEmpty

/-- Modelled from the spec: signature verification against a key
configuration (section 4.5 steps 3-4, `state.current.verify` in the
source): every attached signature's index must select a key; the result
is whether the number of distinct indices with a valid signature meets
the threshold. -/
def KeyConfig.verify (kc : KeyConfig) (C : Crypto) (raw : Bytes) (sigs : List AttachedSignaturePfx) : Except Error Bool :=
  if sigs.all (fun sg => sg.index < kc.public_keys.length) then
    let valid := sigs.filter (fun sg => C.sigOk (kc.public_keys.getD sg.index []) raw sg.sig)
    .ok (decide (kc.threshold ≤ ((valid.map (fun sg => sg.index)).dedup).length))
  else .error .invalidIndex

/-- Modelled from the spec: rotation's witness update (section 4.4):
remove wr then add wa, preserving order, rejecting removals of absent
witnesses and duplicate additions. -/
def updateWitnesses (ws wr wa : List Bytes) : Option (List Bytes) :=
  let removed := ws.filter (fun w => !wr.contains w)
  if wr.all (fun w => ws.contains w)
      && wa.all (fun w => !removed.contains w)
      && decide wa.Nodup then
    some (removed ++ wa)
  else none

/-- `InteractionEvent::apply_to` from
src/src/event/event_data/interaction.rs: returns the state unchanged. -/
def InteractionEvent.apply_to (_d : InteractionEvent) (state : IdentifierState) : Except Error IdentifierState :=
  .ok state

/-- Modelled from the spec: `IdentifierState::apply` (the state module
is not under src/) — the precondition matrix and field updates of
section 4.4, with sequence number and last-event digest advanced by the
envelope and the per-variant semantics applied on top; the interaction
variant delegates to `InteractionEvent.apply_to` from the source. -/
def IdentifierState.apply (C : Crypto) (st : IdentifierState) (em : EventMessage) : Except Error IdentifierState :=
  match em.event.event_data with
  | .icp d =>
    if st.established then .error .outOfOrder
    else if em.event.sn ≠ 0 then .error .outOfOrder
    else if !C.icpOk em then .error .wrongIdentifier
    else
      .ok ⟨em.event.pfx, 0, C.digestEM em, ⟨d.kt, d.k, d.n⟩, d.w, d.wt, none, d.c⟩
  | .rot d =>
    if !st.established then .error .outOfOrder
    else if em.event.pfx ≠ st.pfx then .error .wrongIdentifier
    else if em.event.sn ≠ st.sn + 1 then .error .outOfOrder
    else if d.p ≠ st.last_event_digest then .error .badPriorDigest
    else if C.digestKeys d.k ≠ st.current.threshold_key_digest then .error .nextKeysMismatch
    else
      match updateWitnesses st.witnesses d.wr d.wa with
      | none => .error .semanticError
      | some ws =>
        .ok { st with sn := em.event.sn, last_event_digest := C.digestEM em,
                      current := ⟨d.kt, d.k, d.n⟩, witnesses := ws, tally := d.wt }
  | .ixn d =>
    if !st.established then .error .outOfOrder
    else if em.event.pfx ≠ st.pfx then .error .wrongIdentifier
    else if em.event.sn ≠ st.sn + 1 then .error .outOfOrder
    else if d.previous_event_hash ≠ st.last_event_digest then .error .badPriorDigest
    else
      InteractionEvent.apply_to d
        { st with sn := em.event.sn, last_event_digest := C.digestEM em }
  | .dip d =>
    if st.established then .error .outOfOrder
    else if em.event.sn ≠ 0 then .error .outOfOrder
    else
      match sealSource d.da with
      | none => .error .missingDelegator
      | some dl =>
        .ok ⟨em.event.pfx, 0, C.digestEM em, ⟨d.icp.kt, d.icp.k, d.icp.n⟩, d.icp.w, d.icp.wt, some dl, d.icp.c⟩
  | .drt d =>
    if !st.established then .error .outOfOrder
    else if em.event.pfx ≠ st.pfx then .error .wrongIdentifier
    else if em.event.sn ≠ st.sn + 1 then .error .outOfOrder
    else if d.rot.p ≠ st.last_event_digest then .error .badPriorDigest
    else if sealSource d.da ≠ st.delegator ∨ st.delegator = none then .error .missingDelegator
    else if C.digestKeys d.rot.k ≠ st.current.threshold_key_digest then .error .nextKeysMismatch
    else
      match updateWitnesses st.witnesses d.rot.wr d.rot.wa with
      | none => .error .semanticError
      | some ws =>
        .ok { st with sn := em.event.sn, last_event_digest := C.digestEM em,
                      current := ⟨d.rot.kt, d.rot.k, d.rot.n⟩, witnesses := ws, tally := d.rot.wt }
  | .rct _ => .ok st
  | .vrc _ => .ok st

/-- The folding closure of `signed_event_stream_validate` in parse.rs:
on a key event, apply the state transition, then check the attached
signatures of the raw frame against the post-application key
configuration; receipts are folded past unchanged. Every failure maps
to a nom Verify error at the original input `s`. -/
def foldStep (C : Crypto) (s : Bytes) (acc : Except NomErr IdentifierState) (next : Deserialized) : Except NomErr IdentifierState :=
  match next with
  | .event e =>
    match acc with
    | .error er => .error er
    | .ok st =>
      match IdentifierState.apply C st e.event.event with
      | .error _ => .error (.error s .verify)
      | .ok new_state =>
        match KeyConfig.verify new_state.current C e.event.raw e.signatures with
        | .error _ => .error (.error s .verify)
        | .ok true => .ok new_state
        | .ok false => .error (.error s .verify)
  | _ => acc

/-- `signed_event_stream_validate` of parse.rs: fold_many1 over
signed_message, folding events into an identifier state. -/
def signed_event_stream_validate (C : Crypto) (cborD mgpkD : Decoder) (s : Bytes) : NomResult IdentifierState :=
  match fold_many1 (signed_message cborD mgpkD) (foldStep C s)
      (Except.ok IdentifierState.default) s with
  | .ok (rest, idres) =>
    match idres with
    | .ok st => .ok (rest, st)
    | .error e => .error e
  | .error e => .error e

/-- Public key bytes (ursa `PublicKey`). -/
structure PublicKey where
  key : Bytes
  deriving DecidableEq, Repr

/-- Private key bytes (ursa `PrivateKey`). -/
structure PrivateKey where
  key : Bytes
  deriving DecidableEq, Repr

/-- `Signer` of src/src/signer/mod.rs. -/
structure Signer where
  priv_key : PrivateKey
  pub_key : PublicKey
  deriving DecidableEq, Repr

/-- `CryptoBox` of src/src/signer/mod.rs. -/
structure CryptoBox where
  signer : Signer
  next_priv_key : PrivateKey
  next_pub_key : PublicKey
  deriving DecidableEq, Repr

/-- `CryptoBox::public_key`: the current signer's public key. -/
def CryptoBox.public_key (cb : CryptoBox) : PublicKey :=
  cb.signer.pub_key

/-- `CryptoBox::rotate` from src/src/signer/mod.rs: generate a fresh
keypair (the effectful ursa call is the `keygen` parameter), promote the
stored next keypair to the signer, and store the fresh pair as next. -/
def CryptoBox.rotate (keygen : Except Error (PublicKey × PrivateKey)) (cb : CryptoBox) : Except Error CryptoBox :=
  match keygen with
  | .error e => .error e
  | .ok (npub, npriv) =>
    .ok ⟨⟨cb.next_priv_key, cb.next_pub_key⟩, npriv, npub⟩

/-! Concrete data: the Bob inception vector of test_stream1 and the
interaction frame of test_event in parse.rs. -/

/-- Identifier / key of the Bob inception vector. -/
def bobI : Bytes := ("DSuhyBcPZEZLK-fcw5tzHn2N46wRCG_ZOoeKtWTOunRA").data

/-- Next-keys digest of the Bob inception vector. -/
def bobN : Bytes := ("EPYuj8mq_PYYsoBKkzX1kxSPGYBWaIya3slgCOyOtlqU").data

/-- Signature payload chars of the Bob inception vector. -/
def bobSig : Bytes := ("yIoOoziM1_fGb-1gKWY_LtlKiZIwuaJ5iPkYflmqOxxBn6MspbvCcLf8bF_uAgxCVLG1W4IMEhvDi_8rPORgDw").data

/-- The 230-byte Bob inception JSON frame (test_stream1 of parse.rs). -/
def bobFrame : Bytes := ("\x7b\"v\":\"KERI10JSON0000e6_\",\"i\":\"DSuhyBcPZEZLK-fcw5tzHn2N46wRCG_ZOoeKtWTOunRA\",\"s\":\"0\",\"t\":\"icp\",\"kt\":\"1\",\"k\":[\"DSuhyBcPZEZLK-fcw5tzHn2N46wRCG_ZOoeKtWTOunRA\"],\"n\":\"EPYuj8mq_PYYsoBKkzX1kxSPGYBWaIya3slgCOyOtlqU\",\"wt\":\"0\",\"w\":[],\"c\":[]\x7d").data

/-- Its attachment: count code -AAB then one indexed Ed25519 signature. -/
def bobAtt : Bytes := ("-AABAAyIoOoziM1_fGb-1gKWY_LtlKiZIwuaJ5iPkYflmqOxxBn6MspbvCcLf8bF_uAgxCVLG1W4IMEhvDi_8rPORgDw").data

/-- The full signed Bob inception stream. -/
def bobStream : Bytes := bobFrame ++ bobAtt

/-- The parsed Bob inception event message. -/
def bobEM : EventMessage :=
  ⟨⟨.json, 230⟩, ⟨bobI, 0, .icp ⟨1, [bobI], bobN, 0, [], []⟩⟩⟩

/-- The Bob frame with its raw bytes. -/
def bobDE : DeserializedEvent := ⟨bobEM, bobFrame⟩

/-- The Bob frame with its attached signature. -/
def bobDSE : DeserializedSignedEvent :=
  ⟨bobDE, [⟨.ed25519Sha512, 0, bobSig⟩]⟩

/-- Prior-event digest of the test_event interaction frame. -/
def ixnP : Bytes := ("EHBaMkc2lTj-1qnIgSeD0GmYjw8Zv6EmCgGDVPedn3fI").data

/-- The interaction frame of test_event in parse.rs, verbatim: keys
"p" and "a", declared size 0xa3. -/
def ixnRepoFrame : Bytes := ("\x7b\"v\":\"KERI10JSON0000a3_\",\"i\":\"DSuhyBcPZEZLK-fcw5tzHn2N46wRCG_ZOoeKtWTOunRA\",\"s\":\"3\",\"t\":\"ixn\",\"p\":\"EHBaMkc2lTj-1qnIgSeD0GmYjw8Zv6EmCgGDVPedn3fI\",\"a\":[]\x7d").data

/-- The same frame with the declared size corrected to its actual
length 0x98 = 152, still carrying keys "p" and "a". -/
def ixnSizedFrame : Bytes := ("\x7b\"v\":\"KERI10JSON000098_\",\"i\":\"DSuhyBcPZEZLK-fcw5tzHn2N46wRCG_ZOoeKtWTOunRA\",\"s\":\"3\",\"t\":\"ixn\",\"p\":\"EHBaMkc2lTj-1qnIgSeD0GmYjw8Zv6EmCgGDVPedn3fI\",\"a\":[]\x7d").data

/-- The same event under the field names the source actually declares
("dig" and "data", per the serde renames of InteractionEvent), size
0x9d = 157. -/
def ixnDigFrame : Bytes := ("\x7b\"v\":\"KERI10JSON00009d_\",\"i\":\"DSuhyBcPZEZLK-fcw5tzHn2N46wRCG_ZOoeKtWTOunRA\",\"s\":\"3\",\"t\":\"ixn\",\"dig\":\"EHBaMkc2lTj-1qnIgSeD0GmYjw8Zv6EmCgGDVPedn3fI\",\"data\":[]\x7d").data

/-- The event message the "dig"/"data" frame parses to. -/
def ixnDigEM : EventMessage :=
  ⟨⟨.json, 157⟩, ⟨bobI, 3, .ixn ⟨ixnP, []⟩⟩⟩

/-- Crypto oracle that accepts every signature and identifier binding
and digests everything to the empty string. -/
def trivialC : Crypto := ⟨fun _ => [], fun _ => [], fun _ _ _ => true, fun _ => true⟩

/-- Crypto oracle that rejects every signature. -/
def allFalseC : Crypto := ⟨fun _ => [], fun _ => [], fun _ _ _ => false, fun _ => true⟩

/-- The identifier state after the Bob inception under `trivialC`. -/
def bobStateTriv : IdentifierState :=
  ⟨bobI, 0, [], ⟨1, [bobI], bobN⟩, [], 0, none, []⟩

/-- A frame followed by a count tag with non-base64 digits: sig_count
raises a hard nom Failure there. -/
def c9BadTail : Bytes := ("-A!!").data

/-- Input whose first frame parses but whose attachment hard-fails. -/
def c9BadInput : Bytes := bobFrame ++ c9BadTail

/-- A stream whose first event parses (and fails verification under
`allFalseC`) and whose second frame's attachment hard-fails. -/
def c5Input : Bytes := bobStream ++ bobFrame ++ c9BadTail

/-- Interaction event message used to exercise apply on an established
state (its digest fields match `trivialC`, which digests to []). -/
def c4Em : EventMessage :=
  ⟨⟨.json, 100⟩, ⟨bobI, 1, .ixn ⟨[], []⟩⟩⟩

/-- Concrete key manager for the rotation witness. -/
def c10Box : CryptoBox :=
  ⟨⟨⟨("priv0").data⟩, ⟨("pub0").data⟩⟩, ⟨("privN").data⟩, ⟨("pubN").data⟩⟩

/-- Concrete fresh-keypair generation for the rotation witness. -/
def c10Gen : Except Error (PublicKey × PrivateKey) :=
  .ok (⟨("pubF").data⟩, ⟨("privF").data⟩)

/-- The key manager c10Box rotates into under c10Gen. -/
def c10After : CryptoBox :=
  ⟨⟨⟨("privN").data⟩, ⟨("pubN").data⟩⟩, ⟨("privF").data⟩, ⟨("pubF").data⟩⟩

/-! Helper lemmas. -/

theorem takeN_ok {n : Nat} {s a r : Bytes} (h : takeN n s = some (a, r)) :
    a = s.take n ∧ r = s.drop n ∧ n ≤ s.length := by
  unfold takeN at h
  split at h
  · cases h
    exact ⟨rfl, rfl, by assumption⟩
  · cases h

theorem b64Val_le {c : Char} {v : Nat} (h : b64Val c = some v) : v ≤ 63 := by
  unfold b64Val at h
  split_ifs at h <;> cases h <;> omega

theorem b64_to_num_pair {c1 c2 : Char} {n : Nat} (h : b64_to_num [c1, c2] = some n) :
    ∃ v1 v2, b64Val c1 = some v1 ∧ b64Val c2 = some v2 ∧ n = v1 * 64 + v2 := by
  unfold b64_to_num b64NumGo at h
  cases h1 : b64Val c1 with
  | none => rw [h1] at h; cases h
  | some v1 =>
    rw [h1] at h
    unfold b64NumGo at h
    cases h2 : b64Val c2 with
    | none => rw [h2] at h; cases h
    | some v2 =>
      rw [h2] at h
      unfold b64NumGo at h
      cases h
      exact ⟨v1, v2, rfl, rfl, by ring⟩

theorem b64_to_num_pair_eq {c1 c2 : Char} {v1 v2 : Nat}
    (h1 : b64Val c1 = some v1) (h2 : b64Val c2 = some v2) :
    b64_to_num [c1, c2] = some (v1 * 64 + v2) := by
  unfold b64_to_num b64NumGo
  rw [h1]
  unfold b64NumGo
  rw [h2]
  unfold b64NumGo
  simp only [Option.some.injEq]
  ring

theorem sig_count_ok {s r : Bytes} {n : Nat} (h : sig_count s = .ok (r, n)) :
    r = s.drop 4 ∧ s.take 2 = ['-', 'A'] ∧ n ≤ 4095 := by
  unfold sig_count at h
  split at h
  · split_ifs at h with htag
    split at h
    · rename_i m hm
      cases h
      obtain ⟨v1, v2, hv1, hv2, hn⟩ := b64_to_num_pair hm
      have b1 := b64Val_le hv1
      have b2 := b64Val_le hv2
      refine ⟨rfl, ?_, by omega⟩
      simp [htag.1, htag.2]
    · cases h
  · cases h

theorem sig_count_tag {c1 c2 : Char} {rest : Bytes} {v1 v2 : Nat}
    (h1 : b64Val c1 = some v1) (h2 : b64Val c2 = some v2) :
    sig_count ('-' :: 'A' :: c1 :: c2 :: rest) = .ok (rest, v1 * 64 + v2) := by
  simp [sig_count, b64_to_num_pair_eq h1 h2]

theorem countP_length {α : Type} (p : Bytes → NomResult α) :
    ∀ (n : Nat) (s r : Bytes) (out : List α), countP p n s = .ok (r, out) → out.length = n := by
  intro n
  induction n with
  | zero =>
    intro s r out h
    unfold countP at h
    cases h
    rfl
  | succ m ih =>
    intro s r out h
    unfold countP at h
    split at h
    · split at h
      · cases h
        rename_i r1 a r2 as hrec
        simp [ih _ _ _ hrec]
      · cases h
    · cases h

theorem countP_le {α : Type} (p : Bytes → NomResult α)
    (hp : ∀ s r a, p s = .ok (r, a) → r.length ≤ s.length) :
    ∀ (n : Nat) (s r : Bytes) (out : List α), countP p n s = .ok (r, out) → r.length ≤ s.length := by
  intro n
  induction n with
  | zero =>
    intro s r out h
    unfold countP at h
    cases h
    exact Nat.le_refl _
  | succ m ih =>
    intro s r out h
    unfold countP at h
    split at h
    · rename_i r1 a hp1
      split at h
      · cases h
        rename_i r2 as hrec
        exact Nat.le_trans (ih _ _ _ hrec) (hp _ _ _ hp1)
      · cases h
    · cases h

theorem attached_signature_le {s r : Bytes} {a : AttachedSignaturePfx}
    (h : attached_signature s = .ok (r, a)) : r.length ≤ s.length := by
  unfold attached_signature at h
  repeat' split at h
  all_goals try cases h
  all_goals
    rename_i v htk
    obtain ⟨_, hr, _⟩ := takeN_ok htk
    subst hr
    simp only [List.length_drop, List.length_cons]
    omega

theorem basic_pfx_le {s r : Bytes} {a : BasicPfx}
    (h : basic_pfx s = .ok (r, a)) : r.length ≤ s.length := by
  unfold basic_pfx at h
  repeat' split at h
  all_goals try cases h
  all_goals
    rename_i v htk
    obtain ⟨_, hr, _⟩ := takeN_ok htk
    subst hr
    simp only [List.length_drop, List.length_cons]
    omega

theorem self_signing_pfx_le {s r : Bytes} {a : SelfSigningPfx}
    (h : self_signing_pfx s = .ok (r, a)) : r.length ≤ s.length := by
  unfold self_signing_pfx at h
  repeat' split at h
  all_goals try cases h
  all_goals
    rename_i v htk
    obtain ⟨_, hr, _⟩ := takeN_ok htk
    subst hr
    simp only [List.length_drop, List.length_cons]
    omega

theorem couplet1_le {s r : Bytes} {a : BasicPfx × SelfSigningPfx}
    (h : couplet1 s = .ok (r, a)) : r.length ≤ s.length := by
  unfold couplet1 at h
  split at h
  · rename_i r1 b hb
    split at h
    · cases h
      rename_i r2 ss hss
      exact Nat.le_trans (self_signing_pfx_le hss) (basic_pfx_le hb)
    · cases h
  · cases h

theorem signatures_le {s r : Bytes} {out : List AttachedSignaturePfx}
    (h : signatures s = .ok (r, out)) : r.length ≤ s.length := by
  unfold signatures at h
  split at h
  · rename_i r1 sc hsc
    obtain ⟨hr1, _, _⟩ := sig_count_ok hsc
    have := countP_le attached_signature (fun _ _ _ => attached_signature_le) sc r1 r out h
    subst hr1
    simp [List.length_drop] at this ⊢
    omega
  · cases h

theorem couplets_le {s r : Bytes} {out : List (BasicPfx × SelfSigningPfx)}
    (h : couplets s = .ok (r, out)) : r.length ≤ s.length := by
  unfold couplets at h
  split at h
  · rename_i r1 sc hsc
    obtain ⟨hr1, _, _⟩ := sig_count_ok hsc
    have := countP_le couplet1 (fun _ _ _ => couplet1_le) sc r1 r out h
    subst hr1
    simp [List.length_drop] at this ⊢
    omega
  · cases h

theorem noDec_good : GoodDecoder noDec := by
  intro s em n h
  cases h

theorem parseJObjComplete_nil : parseJObjComplete [] = none := rfl

theorem jsonDecode_good : GoodDecoder jsonDecode := by
  intro s em n h
  unfold jsonDecode at h
  split at h
  · cases h
  · rename_i vinfo hpv
    split_ifs at h with hc
    split at h
    · cases h
    · rename_i flds hfl
      split at h
      · cases h
      · rename_i ev hev
        cases h
        refine ⟨rfl, ?_, hc.2⟩
        rcases Nat.eq_zero_or_pos vinfo.size with hz | hp
        · rw [hz] at hfl
          simp only [List.take_zero] at hfl
          rw [parseJObjComplete_nil] at hfl
          cases hfl
        · exact hp

theorem runCodec_ok {d : Decoder} {s r : Bytes} {de : DeserializedEvent}
    (h : runCodec d s = .ok (r, de)) :
    ∃ n, d s = some (de.event, n) ∧ de.raw = s.take n ∧ r = s.drop n := by
  unfold runCodec at h
  split at h
  · rename_i em n hd
    cases h
    exact ⟨n, hd, rfl, rfl⟩
  · cases h

theorem altP_ok {α : Type} {p q : Bytes → NomResult α} {s : Bytes} {r : Bytes × α}
    (h : altP p q s = .ok r) : p s = .ok r ∨ q s = .ok r := by
  unfold altP at h
  split at h
  · rename_i hp
    cases h
    exact Or.inl hp
  · cases h
  · exact Or.inr h

theorem message_ok {cborD mgpkD : Decoder} {s r : Bytes} {de : DeserializedEvent}
    (h : message cborD mgpkD s = .ok (r, de)) :
    runCodec jsonDecode s = .ok (r, de) ∨ runCodec cborD s = .ok (r, de) ∨
      runCodec mgpkD s = .ok (r, de) := by
  rcases altP_ok h with h1 | h2
  · exact Or.inl h1
  · rcases altP_ok h2 with h3 | h4
    · exact Or.inr (Or.inl h3)
    · exact Or.inr (Or.inr h4)

theorem message_frame {cborD mgpkD : Decoder} (gc : GoodDecoder cborD)
    (gm : GoodDecoder mgpkD) {s r : Bytes} {de : DeserializedEvent}
    (h : message cborD mgpkD s = .ok (r, de)) :
    de.raw = s.take de.event.serialization_info.size ∧
      r = s.drop de.event.serialization_info.size ∧
      de.raw.length = de.event.serialization_info.size ∧
      0 < de.event.serialization_info.size ∧
      de.event.serialization_info.size ≤ s.length := by
  have main : ∃ n, de.raw = s.take n ∧ r = s.drop n ∧
      n = de.event.serialization_info.size ∧ 0 < n ∧ n ≤ s.length := by
    rcases message_ok h with hj | hcb | hmg
    · obtain ⟨n, hd, hraw, hr⟩ := runCodec_ok hj
      obtain ⟨h1, h2, h3⟩ := jsonDecode_good _ _ _ hd
      exact ⟨n, hraw, hr, h1, h2, h3⟩
    · obtain ⟨n, hd, hraw, hr⟩ := runCodec_ok hcb
      obtain ⟨h1, h2, h3⟩ := gc _ _ _ hd
      exact ⟨n, hraw, hr, h1, h2, h3⟩
    · obtain ⟨n, hd, hraw, hr⟩ := runCodec_ok hmg
      obtain ⟨h1, h2, h3⟩ := gm _ _ _ hd
      exact ⟨n, hraw, hr, h1, h2, h3⟩
  obtain ⟨n, hraw, hr, hn, hp, hle⟩ := main
  subst hn
  refine ⟨hraw, hr, ?_, hp, hle⟩
  rw [hraw]
  simp only [List.length_take]
  omega

theorem message_consumes {cborD mgpkD : Decoder} (gc : GoodDecoder cborD)
    (gm : GoodDecoder mgpkD) {s r : Bytes} {de : DeserializedEvent}
    (h : message cborD mgpkD s = .ok (r, de)) : r.length < s.length := by
  obtain ⟨_, hr, _, hp, hle⟩ := message_frame gc gm h
  rw [hr]
  simp only [List.length_drop]
  omega

theorem signed_message_consumes {cborD mgpkD : Decoder} (gc : GoodDecoder cborD)
    (gm : GoodDecoder mgpkD) {s r : Bytes} {d : Deserialized}
    (h : signed_message cborD mgpkD s = .ok (r, d)) : r.length < s.length := by
  unfold signed_message at h
  split at h
  · cases h
  · rename_i rest e hm
    have hlt := message_consumes gc gm hm
    split at h
    all_goals split at h
    all_goals try cases h
    · rename_i hcp
      exact Nat.lt_of_le_of_lt (couplets_le hcp) hlt
    · rename_i hsg
      exact Nat.lt_of_le_of_lt (signatures_le hsg) hlt
    · rename_i hsg
      exact Nat.lt_of_le_of_lt (signatures_le hsg) hlt

theorem many0Fuel_dichotomy {α : Type} (p : Bytes → NomResult α)
    (Hc : ∀ s r a, p s = .ok (r, a) → r.length < s.length) :
    ∀ (fuel : Nat) (i : Bytes), i.length < fuel →
      (∃ rest its, many0Fuel p fuel i = .ok (rest, its) ∧
        ∃ r k, p rest = .error (.error r k)) ∨
      (∃ r k, many0Fuel p fuel i = .error (.failure r k)) := by
  intro fuel
  induction fuel with
  | zero => intro i hi; omega
  | succ f ih =>
    intro i hi
    rcases hp : p i with e | ⟨i2, o⟩
    · cases e with
      | error r k =>
        exact Or.inl ⟨i, [], by simp [many0Fuel, hp], r, k, hp⟩
      | failure r k =>
        exact Or.inr ⟨r, k, by simp [many0Fuel, hp]⟩
    · have hlt := Hc _ _ _ hp
      have hne : i2 ≠ i := by
        intro hh
        rw [hh] at hlt
        omega
      have hi2 : i2.length < f := by omega
      rcases ih i2 hi2 with ⟨rest, its, hm, hsoft⟩ | ⟨r, k, hm⟩
      · exact Or.inl ⟨rest, o :: its, by simp [many0Fuel, hp, hne, hm], hsoft⟩
      · exact Or.inr ⟨r, k, by simp [many0Fuel, hp, hne, hm]⟩

theorem many0Fuel_foldGo {α β : Type} (p : Bytes → NomResult α) (g : β → α → β)
    (Hc : ∀ s r a, p s = .ok (r, a) → r.length < s.length) :
    ∀ (fuel : Nat) (i : Bytes), i.length < fuel →
      ∀ {rest : Bytes} {its : List α}, many0Fuel p fuel i = .ok (rest, its) →
        ∀ (fuel2 : Nat), i.length < fuel2 → ∀ (acc : β),
          foldGo p g fuel2 i acc = .ok (rest, its.foldl g acc) := by
  intro fuel
  induction fuel with
  | zero => intro i hi; omega
  | succ f ih =>
    intro i hi rest its hm fuel2 hf2 acc
    cases fuel2 with
    | zero => omega
    | succ f2 =>
      rcases hp : p i with e | ⟨i2, o⟩
      · cases e with
        | error r k =>
          have hh : many0Fuel p (f + 1) i = .ok (i, []) := by simp [many0Fuel, hp]
          rw [hh] at hm
          cases hm
          simp [foldGo, hp]
        | failure r k =>
          have hh : many0Fuel p (f + 1) i = .error (.failure r k) := by
            simp [many0Fuel, hp]
          rw [hh] at hm
          cases hm
      · have hlt := Hc _ _ _ hp
        have hne : i2 ≠ i := by
          intro hh
          rw [hh] at hlt
          omega
        simp only [many0Fuel, hp, hne, if_false, reduceCtorEq] at hm
        split at hm
        · rename_i rest2 os hrec
          cases hm
          have hstep : foldGo p g (f2 + 1) i acc = foldGo p g f2 i2 (g acc o) := by
            simp [foldGo, hp, hne]
          rw [hstep]
          have := ih i2 (by omega) hrec f2 (by omega) (g acc o)
          simpa [List.foldl_cons] using this
        · cases hm

theorem fold_many1_of_many0 {α β : Type} (p : Bytes → NomResult α) (g : β → α → β)
    (init : β)
    (Hc : ∀ s r a, p s = .ok (r, a) → r.length < s.length) {s rest : Bytes}
    {its : List α} (hm : many0Fuel p (s.length + 1) s = .ok (rest, its))
    (hne : its ≠ []) :
    fold_many1 p g init s = .ok (rest, its.foldl g init) := by
  rcases hp : p s with e | ⟨i1, o1⟩
  · cases e with
    | error r k =>
      have hh : many0Fuel p (s.length + 1) s = .ok (s, []) := by simp [many0Fuel, hp]
      rw [hh] at hm
      cases hm
      exact absurd rfl hne
    | failure r k =>
      have hh : many0Fuel p (s.length + 1) s = .error (.failure r k) := by
        simp [many0Fuel, hp]
      rw [hh] at hm
      cases hm
  · have hlt := Hc _ _ _ hp
    have hne2 : i1 ≠ s := by
      intro hh
      rw [hh] at hlt
      omega
    simp only [many0Fuel, hp, hne2, if_false, reduceCtorEq] at hm
    split at hm
    · rename_i rest2 os hrec
      cases hm
      have hstep : fold_many1 p g init s = foldGo p g (i1.length + 1) i1 (g init o1) := by
        simp [fold_many1, hp]
      rw [hstep]
      have := many0Fuel_foldGo p g Hc s.length i1 (by omega) hrec (i1.length + 1)
        (by omega) (g init o1)
      simpa [List.foldl_cons] using this
    · cases hm

theorem fold_many1_err {α β : Type} (p : Bytes → NomResult α) (g : β → α → β)
    (init : β) {s : Bytes} {er : NomErr} (h : p s = .error er) :
    ∃ er2, fold_many1 p g init s = .error er2 := by
  cases er with
  | error r k => exact ⟨.error s .many1, by simp [fold_many1, h]⟩
  | failure r k => exact ⟨.failure r k, by simp [fold_many1, h]⟩

theorem foldStep_error (C : Crypto) (s : Bytes) (e : NomErr) (d : Deserialized) :
    foldStep C s (.error e) d = .error e := by
  cases d <;> rfl

theorem foldl_foldStep_error (C : Crypto) (s : Bytes) (e : NomErr) :
    ∀ items : List Deserialized,
      List.foldl (foldStep C s) (.error e) items = .error e := by
  intro items
  induction items with
  | nil => rfl
  | cons d t ih => simp [List.foldl_cons, foldStep_error, ih]

/-! Claim theorems. -/

/-- C3: when the stream validator's fold meets an Rct or Vrc message, the
accumulated identifier state passes through unchanged — no state
transition is applied and neither couplets nor signatures are verified. -/
theorem claim3_receipts_skipped (C : Crypto) (s : Bytes)
    (acc : Except NomErr IdentifierState) (v : SignedEventMessage)
    (r : SignedNontransferableReceipt) :
    foldStep C s acc (.vrc v) = acc ∧ foldStep C s acc (.rct r) = acc :=
  ⟨rfl, rfl⟩

/-- C4: applying an interaction event to an established state whose chain
preconditions hold produces the prior state with only sn (advanced by 1)
and last_event_digest (the new frame's digest) changed; current keys,
signing threshold, next-keys digest, witnesses, witness threshold,
config traits and delegator are all unchanged. -/
theorem claim4_ixn_effect (C : Crypto) (st : IdentifierState)
    (em : EventMessage) (d : InteractionEvent)
    (hd : em.event.event_data = .ixn d) (hest : st.established = true)
    (hpfx : em.event.pfx = st.pfx) (hsn : em.event.sn = st.sn + 1)
    (hprev : d.previous_event_hash = st.last_event_digest) :
    IdentifierState.apply C st em =
      .ok { st with sn := st.sn + 1, last_event_digest := C.digestEM em } ∧
    ∀ st2, IdentifierState.apply C st em = .ok st2 →
      st2.current = st.current ∧ st2.witnesses = st.witnesses ∧
      st2.tally = st.tally ∧ st2.config_traits = st.config_traits ∧
      st2.delegator = st.delegator ∧ st2.pfx = st.pfx ∧
      st2.sn = st.sn + 1 ∧ st2.last_event_digest = C.digestEM em := by
  have h1 : IdentifierState.apply C st em =
      .ok { st with sn := st.sn + 1, last_event_digest := C.digestEM em } := by
    unfold IdentifierState.apply
    rw [hd]
    simp [hest, hpfx, hsn, hprev, InteractionEvent.apply_to]
  refine ⟨h1, ?_⟩
  intro st2 h2
  rw [h1] at h2
  cases h2
  simp

/-- Witness for C4: an interaction event applied to the established
post-inception Bob state advances sn and the digest only. -/
theorem claim4_witness :
    IdentifierState.apply trivialC bobStateTriv c4Em =
      .ok { bobStateTriv with
              sn := bobStateTriv.sn + 1,
              last_event_digest := trivialC.digestEM c4Em } :=
  (claim4_ixn_effect trivialC bobStateTriv c4Em ⟨[], []⟩ rfl (by decide)
    (by decide) (by decide) (by decide)).1

/-- C10: whenever CryptoBox::rotate succeeds, the returned manager signs
with the previously committed next keypair (its public_key is the old
next_pub_key, its private signing key the old next private key) and
stores the freshly generated keypair as the new next keypair. -/
theorem claim10_rotate (g : Except Error (PublicKey × PrivateKey))
    (cb cb2 : CryptoBox) (h : CryptoBox.rotate g cb = .ok cb2) :
    CryptoBox.public_key cb2 = cb.next_pub_key ∧
    cb2.signer.priv_key = cb.next_priv_key ∧
    g = .ok (cb2.next_pub_key, cb2.next_priv_key) := by
  unfold CryptoBox.rotate at h
  cases hg : g with
  | error e =>
    rw [hg] at h
    cases h
  | ok pr =>
    rw [hg] at h
    obtain ⟨npub, npriv⟩ := pr
    cases h
    exact ⟨rfl, rfl, rfl⟩

/-- Witness for C10 at a concrete key manager. -/
theorem claim10_witness :
    CryptoBox.public_key c10After = c10Box.next_pub_key ∧
    c10After.signer.priv_key = c10Box.next_priv_key ∧
    c10Gen = .ok (c10After.next_pub_key, c10After.next_priv_key) :=
  claim10_rotate c10Gen c10Box c10After (by decide)

/-- C2: whatever the codec that recognized the frame (all three obey the
spec's size contract; the CBOR and MessagePack codecs are not under src/
and enter as contract-constrained parameters), the raw frame returned by
the message framer is exactly the declared-size prefix of the input, its
length equals the event's declared version-string size, and everything
past that size is returned unconsumed. -/
theorem claim2_frame_size (cborD mgpkD : Decoder) (gc : GoodDecoder cborD)
    (gm : GoodDecoder mgpkD) (s rest : Bytes) (de : DeserializedEvent)
    (h : message cborD mgpkD s = .ok (rest, de)) :
    de.raw.length = de.event.serialization_info.size ∧
    de.raw = s.take de.event.serialization_info.size ∧
    rest = s.drop de.event.serialization_info.size ∧
    de.raw ++ rest = s := by
  obtain ⟨hraw, hr, hlen, _, _⟩ := message_frame gc gm h
  refine ⟨hlen, hraw, hr, ?_⟩
  rw [hraw, hr]
  exact List.take_append_drop _ _

/-- Witness for C2 at the Bob inception stream. -/
theorem claim2_witness :
    bobDE.raw.length = bobDE.event.serialization_info.size ∧
    bobDE.raw = bobStream.take bobDE.event.serialization_info.size ∧
    bobAtt = bobStream.drop bobDE.event.serialization_info.size ∧
    bobDE.raw ++ bobAtt = bobStream :=
  claim2_frame_size noDec noDec noDec_good noDec_good bobStream bobAtt bobDE (by decide)

/-- C6 (code bug): the interaction frame of the repository's own
test_event, whose prior-event digest and seal-list keys are "p" and "a",
does not deserialize — InteractionEvent in interaction.rs serde-renames
the prior-digest field to "dig" and keeps "data" — not even with its
declared size corrected; the same event keyed "dig"/"data" parses. So
the asserted "p" round-trip fails on the code. -/
theorem claim6_ixn_field_names :
    message noDec noDec ixnRepoFrame = .error (.error ixnRepoFrame .isNot) ∧
    message noDec noDec ixnSizedFrame = .error (.error ixnSizedFrame .isNot) ∧
    message noDec noDec ixnDigFrame = .ok ([], ⟨ixnDigEM, ixnDigFrame⟩) :=
  ⟨by decide, by decide, by decide⟩

/-- C1: the stream validator's fold accepts a key event exactly when the
state transition `apply` succeeds and the attached signatures then
verify — against the post-application state's current key configuration
and over the event's full raw frame bytes — returning true; and a
successfully applied rotation's current keys are the newly committed
`k`, not the pre-rotation set. -/
theorem claim1_apply_then_verify (C : Crypto) (s : Bytes)
    (st st2 : IdentifierState) (e : DeserializedSignedEvent) :
    (foldStep C s (.ok st) (.event e) = .ok st2 ↔
      (IdentifierState.apply C st e.event.event = .ok st2 ∧
        KeyConfig.verify st2.current C e.event.raw e.signatures = .ok true)) ∧
    (∀ d, e.event.event.event.event_data = EventData.rot d →
      IdentifierState.apply C st e.event.event = .ok st2 →
      st2.current.public_keys = d.k) := by
  constructor
  · constructor
    · intro h
      rcases happ : IdentifierState.apply C st e.event.event with er | ns
      · have hh : foldStep C s (.ok st) (.event e) = .error (.error s .verify) := by
          simp [foldStep, happ]
        rw [hh] at h
        cases h
      · rcases hv : KeyConfig.verify ns.current C e.event.raw e.signatures with er2 | b
        · have hh : foldStep C s (.ok st) (.event e) = .error (.error s .verify) := by
            simp [foldStep, happ, hv]
          rw [hh] at h
          cases h
        · cases b with
          | false =>
            have hh : foldStep C s (.ok st) (.event e) = .error (.error s .verify) := by
              simp [foldStep, happ, hv]
            rw [hh] at h
            cases h
          | true =>
            have hh : foldStep C s (.ok st) (.event e) = .ok ns := by
              simp [foldStep, happ, hv]
            rw [hh] at h
            cases h
            exact ⟨rfl, hv⟩
    · rintro ⟨happ, hv⟩
      simp [foldStep, happ, hv]
  · intro d hd happ
    simp only [IdentifierState.apply, hd] at happ
    split_ifs at happ
    split at happ
    · cases happ
    · cases happ
      rfl

/-- Witness for C1: the Bob inception event folded from the default
state under the all-accepting crypto oracle. -/
theorem claim1_witness :
    foldStep trivialC [] (.ok IdentifierState.default) (.event bobDSE) = .ok bobStateTriv :=
  ((claim1_apply_then_verify trivialC [] IdentifierState.default bobStateTriv bobDSE).1).mpr
    ⟨by decide, by decide⟩

/-- C7: sig_count accepts exactly "-A" plus two base64 digits, returning
64*d1+d2 (hence a value in 0..4095) and leaving everything after the
four consumed chars untouched; -AAA, -AAB and -ABA decode to 0, 1 and
64; and a successful attached-signature or couplet list parse returns
exactly as many elements as the decoded count. -/
theorem claim7_sig_count :
    (∀ (c1 c2 : Char) (rest : Bytes) (v1 v2 : Nat),
        b64Val c1 = some v1 → b64Val c2 = some v2 →
        sig_count ('-' :: 'A' :: c1 :: c2 :: rest) = .ok (rest, v1 * 64 + v2) ∧
          v1 * 64 + v2 ≤ 4095) ∧
    (∀ (s r : Bytes) (n : Nat), sig_count s = .ok (r, n) →
        n ≤ 4095 ∧ r = s.drop 4 ∧ s.take 2 = ['-', 'A']) ∧
    sig_count (("-AAA").data) = .ok ([], 0) ∧
    sig_count (("-AAB").data) = .ok ([], 1) ∧
    sig_count (("-ABA").data) = .ok ([], 64) ∧
    (∀ (s r : Bytes) (sgs : List AttachedSignaturePfx),
        signatures s = .ok (r, sgs) →
        ∃ n, sig_count s = .ok (s.drop 4, n) ∧ sgs.length = n) ∧
    (∀ (s r : Bytes) (cps : List (BasicPfx × SelfSigningPfx)),
        couplets s = .ok (r, cps) →
        ∃ n, sig_count s = .ok (s.drop 4, n) ∧ cps.length = n) := by
  refine ⟨?_, ?_, by decide, by decide, by decide, ?_, ?_⟩
  · intro c1 c2 rest v1 v2 h1 h2
    have b1 := b64Val_le h1
    have b2 := b64Val_le h2
    exact ⟨sig_count_tag h1 h2, by omega⟩
  · intro s r n h
    obtain ⟨hr, ht, hb⟩ := sig_count_ok h
    exact ⟨hb, hr, ht⟩
  · intro s r sgs h
    unfold signatures at h
    split at h
    · rename_i r1 sc hsc
      obtain ⟨hr1, _, _⟩ := sig_count_ok hsc
      subst hr1
      exact ⟨sc, hsc, countP_length _ _ _ _ _ h⟩
    · cases h
  · intro s r cps h
    unfold couplets at h
    split at h
    · rename_i r1 sc hsc
      obtain ⟨hr1, _, _⟩ := sig_count_ok hsc
      subst hr1
      exact ⟨sc, hsc, countP_length _ _ _ _ _ h⟩
    · cases h

/-- Witness for C7: the Bob attachment decodes count 1 and yields a
one-element signature list. -/
theorem claim7_witness :
    ∃ n, sig_count bobAtt = .ok (bobAtt.drop 4, n) ∧
      ([(⟨.ed25519Sha512, 0, bobSig⟩ : AttachedSignaturePfx)]).length = n :=
  (claim7_sig_count.2.2.2.2.2.1) bobAtt []
    [⟨.ed25519Sha512, 0, bobSig⟩] (by decide)

/-- C8: after framing one event, signed_message dispatches on its type:
Rct parses a count code then that many couplets into a
SignedNontransferableReceipt, Vrc a count code then attached signatures
into a SignedEventMessage, and every other type a count code then
attached signatures into a raw-frame-preserving DeserializedSignedEvent. -/
theorem claim8_dispatch (cborD mgpkD : Decoder) (s rest : Bytes)
    (e : DeserializedEvent) (h : message cborD mgpkD s = .ok (rest, e)) :
    (e.event.event.event_data.isRct = true →
      signed_message cborD mgpkD s =
        match couplets rest with
        | .ok (extra, cps) => .ok (extra, .rct ⟨e.event, cps⟩)
        | .error er => .error er) ∧
    (e.event.event.event_data.isVrc = true →
      signed_message cborD mgpkD s =
        match signatures rest with
        | .ok (extra, sgs) => .ok (extra, .vrc ⟨e.event, sgs⟩)
        | .error er => .error er) ∧
    (e.event.event.event_data.isRct = false →
      e.event.event.event_data.isVrc = false →
      signed_message cborD mgpkD s =
        match signatures rest with
        | .ok (extra, sgs) => .ok (extra, .event ⟨e, sgs⟩)
        | .error er => .error er) := by
  unfold signed_message
  rw [h]
  cases hd : e.event.event.event_data <;>
    simp [hd, EventData.isRct, EventData.isVrc]

/-- Witness for C8: the Bob inception stream takes the key-event branch
and preserves the raw frame. -/
theorem claim8_witness :
    signed_message noDec noDec bobStream = .ok ([], .event bobDSE) := by
  have h := claim8_dispatch noDec noDec bobStream bobAtt bobDE (by decide)
  exact (h.2.2 (by decide) (by decide)).trans (by decide)

/-- C5 counterexample: in this stream the first event fails signature
verification (its fold error is Verify at the whole input), yet the
validator surfaces the hard parse failure raised by the second frame's
malformed signature-count digits instead of the first failing event's
error — so the claim that the first failing event's error is surfaced is
false as stated. -/
theorem claim5_counterexample :
    signed_event_stream_validate allFalseC noDec noDec c5Input =
      .error (.failure c9BadTail .isNot) ∧
    signed_message noDec noDec c5Input = .ok (bobFrame ++ c9BadTail, .event bobDSE) ∧
    foldStep allFalseC c5Input (.ok IdentifierState.default) (.event bobDSE) =
      .error (.error c5Input .verify) ∧
    NomErr.failure c9BadTail .isNot ≠ NomErr.error c5Input .verify :=
  ⟨by decide, by decide, by decide, by decide⟩

/-- C5 (amended): when the whole stream parses (no later frame raises a
hard failure), signed_event_stream_validate returns exactly the result
of folding the parsed messages — so a failing event makes it return an
error, not a state — and that fold surfaces the first failing event's
error: once a prefix folds to a state and the next event's step fails,
the whole fold returns that error, no later event contributing. -/
theorem claim5_first_error (C : Crypto) (cborD mgpkD : Decoder)
    (gc : GoodDecoder cborD) (gm : GoodDecoder mgpkD) (s rest : Bytes)
    (items : List Deserialized)
    (hstream : signed_event_stream cborD mgpkD s = .ok (rest, items))
    (hne : items ≠ []) :
    (signed_event_stream_validate C cborD mgpkD s =
      match items.foldl (foldStep C s) (.ok IdentifierState.default) with
      | .ok st => .ok (rest, st)
      | .error e => .error e) ∧
    (∀ (pre post : List Deserialized) (d : Deserialized)
        (stPre : IdentifierState) (e2 : NomErr),
      items = pre ++ d :: post →
      pre.foldl (foldStep C s) (.ok IdentifierState.default) = .ok stPre →
      foldStep C s (.ok stPre) d = .error e2 →
      items.foldl (foldStep C s) (.ok IdentifierState.default) = .error e2) := by
  constructor
  · have hm : many0Fuel (signed_message cborD mgpkD) (s.length + 1) s = .ok (rest, items) :=
      hstream
    have hf := fold_many1_of_many0 (signed_message cborD mgpkD) (foldStep C s)
      (Except.ok IdentifierState.default)
      (fun a b c hh => signed_message_consumes gc gm hh) hm hne
    simp only [signed_event_stream_validate, hf]
  · intro pre post d stPre e2 hitems hpre hstep
    subst hitems
    rw [List.foldl_append, hpre]
    simp only [List.foldl_cons, hstep, foldl_foldStep_error]

/-- Witness for C5 at the single-event Bob stream under the
all-rejecting oracle: the sole event fails verification and the
validator surfaces exactly its Verify error. -/
theorem claim5_witness :
    signed_event_stream_validate allFalseC noDec noDec bobStream =
      .error (.error bobStream .verify) :=
  ((claim5_first_error allFalseC noDec noDec noDec_good noDec_good bobStream []
    [.event bobDSE] (by decide) (by decide)).1).trans (by decide)

/-- C9 counterexample: signed_event_stream does not succeed on every
input — a frame whose attachment carries non-base64 count digits makes
sig_count raise a hard nom Failure, which many0 propagates. -/
theorem claim9_counterexample :
    signed_event_stream noDec noDec c9BadInput = .error (.failure c9BadTail .isNot) := by
  decide

/-- C9 (amended): signed_event_stream either succeeds — returning the
messages of a maximal prefix and a remainder on which signed_message
fails softly — or fails with a hard nom Failure (raised by malformed
signature-count digits); and signed_event_stream_validate fails on any
input whose head parses no signed message, because it requires at least
one. -/
theorem claim9_stream_vs_validate (cborD mgpkD : Decoder)
    (gc : GoodDecoder cborD) (gm : GoodDecoder mgpkD) (C : Crypto) (s : Bytes) :
    ((∃ rest its, signed_event_stream cborD mgpkD s = .ok (rest, its) ∧
        ∃ r k, signed_message cborD mgpkD rest = .error (.error r k)) ∨
      (∃ r k, signed_event_stream cborD mgpkD s = .error (.failure r k))) ∧
    (∀ er, signed_message cborD mgpkD s = .error er →
      ∃ er2, signed_event_stream_validate C cborD mgpkD s = .error er2) := by
  constructor
  · exact many0Fuel_dichotomy (signed_message cborD mgpkD)
      (fun a b c hh => signed_message_consumes gc gm hh) (s.length + 1) s
      (by omega)
  · intro er her
    obtain ⟨er2, he⟩ := fold_many1_err (signed_message cborD mgpkD) (foldStep C s)
      (Except.ok IdentifierState.default) her
    exact ⟨er2, by simp [signed_event_stream_validate, he]⟩

/-- Witness for C9 at an unparseable input: the validator fails because
no first message parses. -/
theorem claim9_witness :
    ∃ er2, signed_event_stream_validate trivialC noDec noDec (("junk").data) = .error er2 :=
  (claim9_stream_vs_validate noDec noDec noDec_good noDec_good trivialC
    (("junk").data)).2 (.error (("junk").data) .isNot) (by decide)

end Keriox
